import Mathlib

/-!
Verification of the proposal/approval state machine, policy-gated executor,
draft lifecycle, learning store and triage orchestration of the comms-cli
repository, as a shallow embedding in Lean 4.

The sqlite persistence layer (src/comms/db.py is absent from src/) is
modelled as an explicit `DB` state record holding the `proposals`, `drafts`
and `audit_log` tables; `now_iso()` is modelled by a logical clock that is
read for each timestamp and advanced by one on every mutating statement.
External collaborators (provider adapters, the signal store, the LLM
subprocess) are modelled as environment records of oracle functions,
matching the narrow interfaces the source calls through.
-/

namespace Comms

/-- A row of the `proposals` table (src/comms/proposals.py). -/
structure Proposal where
  id : String
  entity_type : String
  entity_id : String
  proposed_action : String
  agent_reasoning : Option String := none
  email : Option String := none
  proposed_at : Nat := 0
  status : String := "pending"
  approved_at : Option Nat := none
  approved_by : Option String := none
  user_reasoning : Option String := none
  rejected_at : Option Nat := none
  correction : Option String := none
  executed_at : Option Nat := none
  deriving Repr, DecidableEq

/-- A row of the `drafts` table (src/comms/drafts.py).  The `Draft` record
itself lives in src/comms/models.py, which is absent from src/; its fields
are those read and written by src/comms/drafts.py and
src/comms/services.py, and spec section 3 ("optional source-account
reference (account id + from-address)") for the two `from_*` fields. -/
structure Draft where
  id : String
  thread_id : Option String := none
  message_id : Option String := none
  to_addr : String
  cc_addr : Option String := none
  subject : String
  body : String
  claude_reasoning : Option String := none
  created_at : Nat := 0
  approved_at : Option Nat := none
  sent_at : Option Nat := none
  from_account_id : Option String := none
  from_addr : Option String := none
  deriving Repr, DecidableEq

/-- A row of the `audit_log` table (src/comms/audit.py; the decision
columns `proposed_action` and `user_decision` are those read back by
src/comms/learning.py).  The json `metadata` payload is modelled by the
three keys the source ever writes or reads: `proposal_id`,
`agent_reasoning` and `correction`. -/
structure AuditEntry where
  action : String
  entity_type : String
  entity_id : String
  proposed_action : Option String := none
  user_decision : Option String := none
  meta_proposal_id : Option String := none
  meta_agent_reasoning : Option String := none
  meta_correction : Option String := none
  timestamp : Nat := 0
  deriving Repr, DecidableEq

/-- The durable store (tables of src/comms/db.py, absent from src/),
plus the logical clock standing for `now_iso()` / `datetime.now()`. -/
structure DB where
  proposals : List Proposal := []
  drafts : List Draft := []
  audit_log : List AuditEntry := []
  clock : Nat := 0
  deriving Repr, DecidableEq

/-- src/comms/audit.py `log`: append-only insert into `audit_log`. -/
def audit_log_entry (action entity_type entity_id : String)
    (meta_proposal_id meta_agent_reasoning meta_correction : Option String)
    (db : DB) : DB :=
  { db with
    audit_log := db.audit_log ++
      [{ action := action, entity_type := entity_type, entity_id := entity_id,
         meta_proposal_id := meta_proposal_id,
         meta_agent_reasoning := meta_agent_reasoning,
         meta_correction := meta_correction,
         timestamp := db.clock }],
    clock := db.clock + 1 }

/-- Modelled from the spec: `audit.log_decision` is called by
src/comms/proposals.py but absent from src/comms/audit.py (the function is
missing from src/).  Per spec section 3, a decision audit entry is
"append-only: action name, entity_type, entity_id, metadata ...
additionally: the proposed_action and the human's decision outcome"; the
columns written here are exactly those src/comms/learning.py reads back
(`action = 'decision'`, `proposed_action`, `user_decision`, metadata key
`correction`). -/
def log_decision (proposed_action entity_type entity_id user_decision : String)
    (meta_proposal_id meta_agent_reasoning meta_correction : Option String)
    (db : DB) : DB :=
  { db with
    audit_log := db.audit_log ++
      [{ action := "decision", entity_type := entity_type, entity_id := entity_id,
         proposed_action := some proposed_action,
         user_decision := some user_decision,
         meta_proposal_id := meta_proposal_id,
         meta_agent_reasoning := meta_agent_reasoning,
         meta_correction := meta_correction,
         timestamp := db.clock }],
    clock := db.clock + 1 }

/-- src/comms/proposals.py `get_proposal`: `SELECT * FROM proposals WHERE id = ?`. -/
def get_proposal (proposal_id : String) (db : DB) : Option Proposal :=
  db.proposals.find? (fun p => p.id == proposal_id)

/-- ASCII-case-insensitive character comparison: the default collation of
the SQLite `LIKE` operator is case-insensitive for ASCII characters. -/
def likeCharEq (a b : Char) : Bool :=
  a.toLower == b.toLower

/-- The SQLite `LIKE` pattern matcher over character lists: `%` matches any
(possibly empty) run of characters (tried over every suffix of the text),
`_` matches exactly one character, and any other pattern character matches
one text character ASCII-case-insensitively. -/
def likeMatch : List Char → List Char → Bool
  | [], s => s.isEmpty
  | '%' :: ps, s => s.tails.any (fun t => likeMatch ps t)
  | '_' :: ps, s =>
      match s with
      | [] => false
      | _ :: s2 => likeMatch ps s2
  | p :: ps, s =>
      match s with
      | [] => false
      | c :: s2 => likeCharEq p c && likeMatch ps s2

/-- src/comms/proposals.py `_resolve_proposal_id`:
`SELECT id FROM proposals WHERE id LIKE ? ORDER BY proposed_at DESC` with
pattern `f"{proposal_id_prefix}%"`; resolves only when exactly one row
matches. -/
def resolve_proposal_id (pfx : String) (db : DB) : Option String :=
  let rows :=
    ((db.proposals.filter
        (fun p => likeMatch (pfx ++ "%").toList p.id.toList)).insertionSort
      (fun a b => b.proposed_at ≤ a.proposed_at)).map (fun p => p.id)
  match rows with
  | [r] => some r
  | _ => none

/-- src/comms/proposals.py `approve_proposal`: pending-only guard, then a
single UPDATE plus a decision audit entry. -/
def approve_proposal (proposal_id : String) (user_reasoning : Option String)
    (db : DB) : Bool × DB :=
  let full_id := (resolve_proposal_id proposal_id db).getD proposal_id
  match get_proposal full_id db with
  | none => (false, db)
  | some proposal =>
    if proposal.status != "pending" then (false, db)
    else
      let db1 : DB :=
        { db with
          proposals := db.proposals.map (fun p =>
            if p.id == full_id then
              { p with status := "approved", approved_at := some db.clock,
                       approved_by := some "user",
                       user_reasoning := user_reasoning }
            else p),
          clock := db.clock + 1 }
      (true,
        log_decision proposal.proposed_action proposal.entity_type
          proposal.entity_id "approved" (some proposal_id)
          proposal.agent_reasoning none db1)

/-- src/comms/proposals.py `reject_proposal`: pending-only guard, then a
single UPDATE plus a decision audit entry whose kind depends on whether a
correction is supplied. -/
def reject_proposal (proposal_id : String) (user_reasoning : Option String)
    (correction : Option String) (db : DB) : Bool × DB :=
  let full_id := (resolve_proposal_id proposal_id db).getD proposal_id
  match get_proposal full_id db with
  | none => (false, db)
  | some proposal =>
    if proposal.status != "pending" then (false, db)
    else
      let db1 : DB :=
        { db with
          proposals := db.proposals.map (fun p =>
            if p.id == full_id then
              { p with status := "rejected", rejected_at := some db.clock,
                       user_reasoning := user_reasoning,
                       correction := correction }
            else p),
          clock := db.clock + 1 }
      let decision_type :=
        if correction.isSome then "rejected_with_correction" else "rejected"
      (true,
        log_decision proposal.proposed_action proposal.entity_type
          proposal.entity_id decision_type (some proposal_id)
          proposal.agent_reasoning correction db1)

/-- src/comms/proposals.py `mark_executed`: an UPDATE with no status guard
(`UPDATE proposals SET status = 'executed', executed_at = ? WHERE id = ?`),
an `execute` audit entry when the row exists, and an unconditional
`return True`. -/
def mark_executed (proposal_id : String) (db : DB) : Bool × DB :=
  let db1 : DB :=
    { db with
      proposals := db.proposals.map (fun p =>
        if p.id == proposal_id then
          { p with status := "executed", executed_at := some db.clock }
        else p),
      clock := db.clock + 1 }
  match get_proposal proposal_id db1 with
  | some proposal =>
      (true,
        audit_log_entry "execute" proposal.entity_type proposal.entity_id
          (some proposal_id) none none db1)
  | none => (true, db1)

/-- Sort key used by `get_approved_proposals` (`ORDER BY approved_at ASC`);
approved rows always carry a timestamp. -/
def approvedKey (p : Proposal) : Nat :=
  p.approved_at.getD 0

/-- src/comms/proposals.py `get_approved_proposals`:
`SELECT * FROM proposals WHERE status = 'approved' ORDER BY approved_at ASC`. -/
def get_approved_proposals (db : DB) : List Proposal :=
  (db.proposals.filter (fun p => p.status == "approved")).insertionSort
    (fun a b => approvedKey a ≤ approvedKey b)

/-! Helper lemmas about id-keyed lookups over the row-update maps that model
SQL UPDATE statements. -/

theorem find?_id_map (u : Proposal → Proposal) (hu : ∀ p, (u p).id = p.id)
    (l : List Proposal) (i : String) :
    (l.map u).find? (fun p => p.id == i) = (l.find? (fun p => p.id == i)).map u := by
  rw [List.find?_map]
  have hfun : ((fun p : Proposal => p.id == i) ∘ u) = (fun p : Proposal => p.id == i) := by
    funext p
    simp [Function.comp, hu]
  rw [hfun]

theorem map_update_id_of_absent (l : List Proposal) (i : String)
    (h : ∀ p ∈ l, p.id ≠ i) (upd : Proposal → Proposal) :
    l.map (fun p => if p.id == i then upd p else p) = l := by
  induction l with
  | nil => rfl
  | cons a t ih =>
      have ha : ¬(a.id == i) = true := by
        simp [h a (List.mem_cons_self a t)]
      simp only [List.map_cons, if_neg ha, List.cons.injEq]
      exact ⟨trivial, ih (fun p hp => h p (List.mem_cons_of_mem a hp))⟩

theorem get_proposal_eq_none_iff (i : String) (db : DB) :
    get_proposal i db = none ↔ ∀ p ∈ db.proposals, p.id ≠ i := by
  simp [get_proposal, List.find?_eq_none]

/-- Counterexample to claim C2 as stated: `rejected` is not terminal under
`mark_executed`; the update carries no status guard, so a rejected proposal
transitions to `executed`. -/
def dbC2 : DB :=
  { proposals := [{ id := "p1", entity_type := "thread", entity_id := "t1",
                    proposed_action := "archive", status := "rejected" }],
    clock := 5 }

/-- Claim C2, as stated, is false on the code: the proposal `p1` of `dbC2`
is in the terminal state `rejected`, yet `mark_executed` succeeds and moves
it to `executed`. -/
theorem c2_counterexample :
    (get_proposal "p1" dbC2).map Proposal.status = some "rejected" ∧
    (mark_executed "p1" dbC2).fst = true ∧
    (get_proposal "p1" (mark_executed "p1" dbC2).snd).map Proposal.status
      = some "executed" := by
  decide

theorem find?_update_of_found (l : List Proposal) (i : String)
    (upd : Proposal → Proposal) (hupd : ∀ p, (upd p).id = p.id)
    (q : Proposal) (hq : l.find? (fun p => p.id == i) = some q) :
    (l.map (fun p => if p.id == i then upd p else p)).find? (fun p => p.id == i)
      = some (upd q) := by
  have hu : ∀ p : Proposal,
      ((fun p : Proposal => if p.id == i then upd p else p) p).id = p.id := by
    intro p
    by_cases h : (p.id == i) = true <;> simp [h, hupd]
  rw [find?_id_map _ hu, hq]
  have hqi := List.find?_some hq
  show some (if (q.id == i) = true then upd q else q) = some (upd q)
  rw [if_pos hqi]

theorem mark_executed_status (db : DB) (i : String) (q : Proposal)
    (hq : get_proposal i db = some q) :
    (get_proposal i (mark_executed i db).snd).map Proposal.status
      = some "executed" := by
  have hq2 : db.proposals.find? (fun p => p.id == i) = some q := hq
  have hfind := find?_update_of_found db.proposals i
    (fun p => { p with status := "executed", executed_at := some db.clock })
    (fun p => rfl) q hq2
  have hprops : (mark_executed i db).snd.proposals
      = db.proposals.map (fun p =>
          if p.id == i then
            { p with status := "executed", executed_at := some db.clock }
          else p) := by
    simp only [mark_executed]
    split <;> rfl
  show (((mark_executed i db).snd.proposals.find?
      (fun p => p.id == i)).map Proposal.status) = some "executed"
  rw [hprops]
  exact (congrArg (Option.map Proposal.status) hfind).trans rfl

/-- Claim C2, amended: `approve_proposal` and `reject_proposal` transition
only from `pending` (so a second call returns false with no state change,
and `rejected`/`executed` are terminal for those two operations), while
`mark_executed` is unguarded and sets `executed` from any current status. -/
theorem c2_amended (db : DB) (inp : String) (r corr : Option String) :
    (∀ q, get_proposal ((resolve_proposal_id inp db).getD inp) db = some q →
        q.status ≠ "pending" →
        approve_proposal inp r db = (false, db) ∧
        reject_proposal inp r corr db = (false, db)) ∧
    (get_proposal ((resolve_proposal_id inp db).getD inp) db = none →
        approve_proposal inp r db = (false, db) ∧
        reject_proposal inp r corr db = (false, db)) ∧
    (∀ q, get_proposal ((resolve_proposal_id inp db).getD inp) db = some q →
        q.status = "pending" →
        (approve_proposal inp r db).fst = true ∧
        (get_proposal ((resolve_proposal_id inp db).getD inp)
            (approve_proposal inp r db).snd).map Proposal.status
          = some "approved" ∧
        (reject_proposal inp r corr db).fst = true ∧
        (get_proposal ((resolve_proposal_id inp db).getD inp)
            (reject_proposal inp r corr db).snd).map Proposal.status
          = some "rejected") ∧
    (∀ i q, get_proposal i db = some q →
        (get_proposal i (mark_executed i db).snd).map Proposal.status
          = some "executed") := by
  refine ⟨?_, ?_, ?_, ?_⟩
  · intro q hq hst
    have hbne : (q.status != "pending") = true := by
      simp [bne_iff_ne, hst]
    constructor
    · simp [approve_proposal, hq, hbne]
    · simp [reject_proposal, hq, hbne]
  · intro hq
    constructor
    · simp [approve_proposal, hq]
    · simp [reject_proposal, hq]
  · intro q hq hst
    have hbne : (q.status != "pending") = false := by
      simp [bne, hst]
    have hq2 : db.proposals.find?
        (fun p => p.id == (resolve_proposal_id inp db).getD inp) = some q := hq
    refine ⟨?_, ?_, ?_, ?_⟩
    · simp [approve_proposal, hq, hbne]
    · have hfind := find?_update_of_found db.proposals
        ((resolve_proposal_id inp db).getD inp)
        (fun p => { p with status := "approved",
                           approved_at := some db.clock,
                           approved_by := some "user",
                           user_reasoning := r })
        (fun p => rfl) q hq2
      have hprops : (approve_proposal inp r db).snd.proposals
          = db.proposals.map (fun p =>
              if p.id == (resolve_proposal_id inp db).getD inp then
                { p with status := "approved",
                         approved_at := some db.clock,
                         approved_by := some "user",
                         user_reasoning := r }
              else p) := by
        simp only [approve_proposal, hq, hbne, Bool.false_eq_true, if_false,
          log_decision]
      show (((approve_proposal inp r db).snd.proposals.find?
          (fun p => p.id == (resolve_proposal_id inp db).getD inp)).map
            Proposal.status) = some "approved"
      rw [hprops]
      exact (congrArg (Option.map Proposal.status) hfind).trans rfl
    · simp [reject_proposal, hq, hbne]
    · have hfind := find?_update_of_found db.proposals
        ((resolve_proposal_id inp db).getD inp)
        (fun p => { p with status := "rejected",
                           rejected_at := some db.clock,
                           user_reasoning := r,
                           correction := corr })
        (fun p => rfl) q hq2
      have hprops : (reject_proposal inp r corr db).snd.proposals
          = db.proposals.map (fun p =>
              if p.id == (resolve_proposal_id inp db).getD inp then
                { p with status := "rejected",
                         rejected_at := some db.clock,
                         user_reasoning := r,
                         correction := corr }
              else p) := by
        simp only [reject_proposal, hq, hbne, Bool.false_eq_true, if_false,
          log_decision]
      show (((reject_proposal inp r corr db).snd.proposals.find?
          (fun p => p.id == (resolve_proposal_id inp db).getD inp)).map
            Proposal.status) = some "rejected"
      rw [hprops]
      exact (congrArg (Option.map Proposal.status) hfind).trans rfl
  · intro i q hq
    exact mark_executed_status db i q hq

/-- A pending proposal used to instantiate the amended C2 theorem. -/
def pC2W : Proposal :=
  { id := "q1", entity_type := "signal_message", entity_id := "m1",
    proposed_action := "mark_read", status := "pending" }

def dbC2W : DB :=
  { proposals := [pC2W], clock := 9 }

def dbC2Wb : DB :=
  (approve_proposal "q1" none dbC2W).snd

/-- Witness for the amended C2 theorem: a concrete pending proposal is
approved, and a second approve on the now-approved proposal returns false
with no state change. -/
theorem c2_amended_witness :
    (approve_proposal "q1" none dbC2W).fst = true ∧
    (get_proposal ((resolve_proposal_id "q1" dbC2W).getD "q1")
        (approve_proposal "q1" none dbC2W).snd).map Proposal.status
      = some "approved" ∧
    approve_proposal "q1" none dbC2Wb = (false, dbC2Wb) := by
  refine ⟨?_, ?_, ?_⟩
  · exact ((c2_amended dbC2W "q1" none none).2.2.1 pC2W (by decide) (by decide)).1
  · exact ((c2_amended dbC2W "q1" none none).2.2.1 pC2W (by decide) (by decide)).2.1
  · exact ((c2_amended dbC2Wb "q1" none none).1
      { pC2W with status := "approved", approved_at := some 9,
                  approved_by := some "user" }
      (by decide) (by decide)).1

/-- Claim C9: `mark_executed` returns true for every input id; when no row
matches, neither the proposals table nor the audit log changes; when a row
matches, its status is set to `executed` with no guard on the prior status. -/
theorem c9_mark_executed (db : DB) (i : String) :
    (mark_executed i db).fst = true ∧
    ((∀ p ∈ db.proposals, p.id ≠ i) →
      (mark_executed i db).snd.proposals = db.proposals ∧
      (mark_executed i db).snd.audit_log = db.audit_log) ∧
    (∀ q, get_proposal i db = some q →
      (get_proposal i (mark_executed i db).snd).map Proposal.status
        = some "executed") := by
  refine ⟨?_, ?_, ?_⟩
  · simp only [mark_executed]
    split <;> rfl
  · intro h
    have hmap := map_update_id_of_absent db.proposals i h
      (fun p => { p with status := "executed", executed_at := some db.clock })
    have hnone : db.proposals.find? (fun p => p.id == i) = none :=
      List.find?_eq_none.mpr (fun p hp => by simp [h p hp])
    have hget : get_proposal i
        ({ db with
            proposals := db.proposals.map (fun p =>
              if p.id == i then
                { p with status := "executed", executed_at := some db.clock }
              else p),
            clock := db.clock + 1 } : DB) = none := by
      show (db.proposals.map (fun p =>
          if p.id == i then
            { p with status := "executed", executed_at := some db.clock }
          else p)).find? (fun p => p.id == i) = none
      rw [hmap]
      exact hnone
    constructor
    · simp only [mark_executed, hget]
      exact hmap
    · simp only [mark_executed, hget]
  · intro q hq
    exact mark_executed_status db i q hq

def dbC9W : DB :=
  { proposals := [{ id := "r1", entity_type := "thread", entity_id := "t9",
                    proposed_action := "flag", status := "pending" }],
    clock := 3 }

/-- Witness for C9: a missing id returns true and leaves both tables
unchanged; an existing pending proposal is set to executed. -/
theorem c9_mark_executed_witness :
    ((mark_executed "zz" dbC9W).fst = true ∧
      (mark_executed "zz" dbC9W).snd.proposals = dbC9W.proposals ∧
      (mark_executed "zz" dbC9W).snd.audit_log = dbC9W.audit_log) ∧
    (get_proposal "r1" (mark_executed "r1" dbC9W).snd).map Proposal.status
      = some "executed" := by
  refine ⟨⟨(c9_mark_executed dbC9W "zz").1, ?_, ?_⟩, ?_⟩
  · exact ((c9_mark_executed dbC9W "zz").2.1 (by decide)).1
  · exact ((c9_mark_executed dbC9W "zz").2.1 (by decide)).2
  · exact (c9_mark_executed dbC9W "r1").2.2
      { id := "r1", entity_type := "thread", entity_id := "t9",
        proposed_action := "flag", status := "pending" } (by decide)

def dbC7 : DB :=
  { proposals := [{ id := "a1b2", entity_type := "thread", entity_id := "t1",
                    proposed_action := "archive" }] }

/-- Claim C7 as stated is false: with a single stored proposal whose id is
"a1b2", the input "%" resolves (the SQL LIKE pattern "%%" matches the lone
row) even though no stored id starts with "%", so resolution is not
equivalent to "exactly one stored id starts with the input". -/
theorem c7_counterexample :
    (dbC7.proposals.filter
      (fun p => "%".toList.isPrefixOf p.id.toList)).length = 0 ∧
    resolve_proposal_id "%" dbC7 = some "a1b2" := by
  decide

/-- Claim C7, amended: the input resolves to a full id iff exactly one
stored proposal id matches the input as an SQL LIKE prefix pattern
(input followed by "%", ASCII-case-insensitive, with % and _ wildcards in
the input interpreted by LIKE); with zero or multiple matches the input is
used literally, so approve/reject then fail unless the input is itself a
stored full id. -/
theorem c7_amended (db : DB) (inp : String) :
    (∀ fid, resolve_proposal_id inp db = some fid ↔
        (db.proposals.filter
            (fun p => likeMatch (inp ++ "%").toList p.id.toList)).map Proposal.id
          = [fid]) ∧
    (resolve_proposal_id inp db = none →
      (∀ p ∈ db.proposals, p.id ≠ inp) →
      approve_proposal inp none db = (false, db) ∧
      reject_proposal inp none none db = (false, db)) := by
  constructor
  · intro fid
    have hperm : List.Perm
        (((db.proposals.filter
            (fun p => likeMatch (inp ++ "%").toList p.id.toList)).insertionSort
              (fun a b => b.proposed_at ≤ a.proposed_at)).map Proposal.id)
        ((db.proposals.filter
            (fun p => likeMatch (inp ++ "%").toList p.id.toList)).map Proposal.id) :=
      (List.perm_insertionSort _ _).map Proposal.id
    have hres : resolve_proposal_id inp db = some fid ↔
        ((db.proposals.filter
            (fun p => likeMatch (inp ++ "%").toList p.id.toList)).insertionSort
              (fun a b => b.proposed_at ≤ a.proposed_at)).map Proposal.id
          = [fid] := by
      simp only [resolve_proposal_id]
      cases hS : ((db.proposals.filter
          (fun p => likeMatch (inp ++ "%").toList p.id.toList)).insertionSort
            (fun a b => b.proposed_at ≤ a.proposed_at)).map Proposal.id with
      | nil => simp
      | cons a t =>
          cases t with
          | nil => simp
          | cons b t2 => simp
    rw [hres]
    constructor
    · intro h
      exact List.perm_singleton.mp (h ▸ hperm.symm)
    · intro h
      exact List.perm_singleton.mp (h ▸ hperm)
  · intro hres habs
    have hnone : get_proposal inp db = none :=
      List.find?_eq_none.mpr (fun p hp => by simp [habs p hp])
    constructor
    · simp [approve_proposal, hres, hnone]
    · simp [reject_proposal, hres, hnone]

def dbC7W : DB :=
  { proposals := [{ id := "a1b2", entity_type := "thread", entity_id := "t1",
                    proposed_action := "archive" }] }

/-- Witness for the amended C7 theorem: the unique prefix "a1" resolves to
the stored id, and a non-matching input falls back to a literal lookup that
fails. -/
theorem c7_amended_witness :
    resolve_proposal_id "a1" dbC7W = some "a1b2" ∧
    approve_proposal "zz" none dbC7W = (false, dbC7W) := by
  constructor
  · exact ((c7_amended dbC7W "a1").1 "a1b2").mpr (by decide)
  · exact ((c7_amended dbC7W "zz").2 (by decide) (by decide)).1

/-- src/comms/learning.py `ActionStats`. -/
structure ActionStats where
  action : String
  total : Nat
  approved : Nat
  rejected : Nat
  corrected : Nat
  accuracy : ℚ
  corrections : List (String × String)
  deriving Repr, DecidableEq

/-- The audit rows scanned by src/comms/learning.py `get_decision_stats`:
`WHERE action = 'decision' AND proposed_action IS NOT NULL`. -/
def decisionRows (db : DB) : List AuditEntry :=
  db.audit_log.filter (fun e => e.action == "decision" && e.proposed_action.isSome)

/-- The decision rows attributed to one action (the per-key grouping of the
stats dictionary built by `get_decision_stats`). -/
def decisionRowsFor (db : DB) (a : String) : List AuditEntry :=
  (decisionRows db).filter (fun e => e.proposed_action == some a)

/-- src/comms/learning.py `get_decision_stats`, viewed per action: counts of
approved / rejected / rejected_with_correction decisions, accuracy =
approved / total (0.0 when total is 0; Python floats are modelled as exact
rationals), and the correction pairs. -/
def statsFor (db : DB) (a : String) : ActionStats :=
  let rows := decisionRowsFor db a
  let total := rows.length
  let approvedN := (rows.filter (fun e => e.user_decision == some "approved")).length
  let rejectedN := (rows.filter (fun e => e.user_decision == some "rejected")).length
  let correctedRows :=
    rows.filter (fun e => e.user_decision == some "rejected_with_correction")
  { action := a, total := total, approved := approvedN, rejected := rejectedN,
    corrected := correctedRows.length,
    accuracy := if 0 < total then (approvedN : ℚ) / (total : ℚ) else 0,
    corrections := (correctedRows.filterMap (fun e => e.meta_correction)).map
      (fun c => (a, c)) }

/-- The keys of the stats dictionary built by `get_decision_stats`: the
actions occurring in decision rows. -/
def statActions (db : DB) : List String :=
  ((decisionRows db).filterMap (fun e => e.proposed_action)).dedup

/-- src/comms/learning.py `suggest_auto_approve` (defaults: threshold 0.95,
min_samples 10): the actions whose stats meet both bars. -/
def suggest_auto_approve (threshold : ℚ) (min_samples : Nat) (db : DB) :
    List String :=
  (statActions db).filter (fun a =>
    decide (min_samples ≤ (statsFor db a).total)
      && decide (threshold ≤ (statsFor db a).accuracy))

/-- The `auto_approve` policy block (defaults in src/comms/config.py
`get_policy`). -/
structure AutoApprovePolicy where
  enabled : Bool := false
  threshold : ℚ := 95 / 100
  min_samples : Nat := 10
  actions : List String := []
  deriving Repr, DecidableEq

/-- Modelled from the spec: the live Policy Engine auto-approve gate
(src/comms/policy.py is absent from src/).  Spec section 4.1: auto-approve
applies when the block is enabled, the proposed action has accuracy ≥
threshold over ≥ min_samples historical decisions from the Learning Store,
and the action list is empty or contains the action; spec section 4.5 says
it performs the same computation as `suggest_auto_approve`. -/
def auto_approve_gate (pol : AutoApprovePolicy) (db : DB) (a : String) : Bool :=
  pol.enabled
    && decide (pol.min_samples ≤ (statsFor db a).total)
    && decide (pol.threshold ≤ (statsFor db a).accuracy)
    && (pol.actions.isEmpty || pol.actions.contains a)

theorem mem_statActions_iff (db : DB) (a : String) :
    a ∈ statActions db ↔ 0 < (statsFor db a).total := by
  simp only [statActions, List.mem_dedup, List.mem_filterMap, statsFor,
    decisionRowsFor, List.length_pos_iff_exists_mem, List.mem_filter]
  constructor
  · rintro ⟨e, he, hpa⟩
    exact ⟨e, he, by simp [hpa]⟩
  · rintro ⟨e, he, hpa⟩
    exact ⟨e, he, by simpa using hpa⟩

/-- Claim C6: an action is selected by `suggest_auto_approve` exactly when
its historical decision count reaches min_samples and its accuracy reaches
the threshold; no action with fewer than min_samples decisions is ever
selected regardless of accuracy; and the (spec-modelled) live gate checks
imply the same bars, so a gated action is also one `suggest_auto_approve`
reports. -/
theorem c6_auto_approve_selection (db : DB) (q : ℚ) (m : Nat) (a : String)
    (pol : AutoApprovePolicy) :
    (1 ≤ m →
      (a ∈ suggest_auto_approve q m db ↔
        m ≤ (statsFor db a).total ∧ q ≤ (statsFor db a).accuracy)) ∧
    ((statsFor db a).total < m → a ∉ suggest_auto_approve q m db) ∧
    (auto_approve_gate pol db a = true →
      pol.enabled = true ∧
      pol.min_samples ≤ (statsFor db a).total ∧
      pol.threshold ≤ (statsFor db a).accuracy ∧
      (1 ≤ pol.min_samples →
        a ∈ suggest_auto_approve pol.threshold pol.min_samples db)) := by
  refine ⟨?_, ?_, ?_⟩
  · intro hm
    constructor
    · intro ha
      have := List.mem_filter.mp ha
      constructor
      · exact of_decide_eq_true (Bool.and_elim_left this.2)
      · exact of_decide_eq_true (Bool.and_elim_right this.2)
    · rintro ⟨h1, h2⟩
      refine List.mem_filter.mpr ⟨?_, ?_⟩
      · exact (mem_statActions_iff db a).mpr (Nat.lt_of_lt_of_le hm h1)
      · simp [h1, h2]
  · intro hlt ha
    have := List.mem_filter.mp ha
    have h1 : m ≤ (statsFor db a).total :=
      of_decide_eq_true (Bool.and_elim_left this.2)
    exact absurd h1 (Nat.not_le_of_lt hlt)
  · intro hg
    simp only [auto_approve_gate, Bool.and_eq_true, Bool.or_eq_true,
      decide_eq_true_eq] at hg
    refine ⟨hg.1.1.1, hg.1.1.2, hg.1.2, ?_⟩
    intro hm
    refine List.mem_filter.mpr ⟨?_, ?_⟩
    · exact (mem_statActions_iff db a).mpr (Nat.lt_of_lt_of_le hm hg.1.1.2)
    · simp [hg.1.1.2, hg.1.2]

/-- Decision history used to instantiate C6: two approved decisions for
"archive", one approved decision for "flag". -/
def dbC6W : DB :=
  { audit_log :=
      [{ action := "decision", entity_type := "thread", entity_id := "t1",
         proposed_action := some "archive", user_decision := some "approved" },
       { action := "decision", entity_type := "thread", entity_id := "t2",
         proposed_action := some "archive", user_decision := some "approved" },
       { action := "decision", entity_type := "thread", entity_id := "t3",
         proposed_action := some "flag", user_decision := some "approved" }] }

/-- Witness for C6: "archive" (2 samples, accuracy 1) is selected at
threshold 1 with min_samples 2, while "flag" (1 sample, accuracy 1) is not
selected at min_samples 10 despite 100 percent accuracy. -/
theorem c6_auto_approve_selection_witness :
    "archive" ∈ suggest_auto_approve 1 2 dbC6W ∧
    "flag" ∉ suggest_auto_approve (95 / 100) 10 dbC6W := by
  constructor
  · exact ((c6_auto_approve_selection dbC6W 1 2 "archive" {}).1
      (by decide)).mpr
      (by constructor
          · decide
          · simp +decide [statsFor, decisionRowsFor, decisionRows, dbC6W])
  · exact (c6_auto_approve_selection dbC6W (95 / 100) 10 "flag" {}).2.1
      (by decide)

/-! Draft lifecycle (src/comms/drafts.py) and the spec-modelled policy
engine around it. -/

/-- src/comms/drafts.py `get_draft`: `SELECT * FROM drafts WHERE id = ?`. -/
def get_draft (draft_id : String) (db : DB) : Option Draft :=
  db.drafts.find? (fun d => d.id == draft_id)

/-- src/comms/drafts.py `create_draft` (uuid4 modelled by the
caller-supplied fresh id).  The to/subject metadata payload of the audit
entry is not modelled: no reader of the audit log inspects it. -/
def create_draft (fresh_id to_addr subject body : String)
    (thread_id message_id cc_addr claude_reasoning : Option String)
    (db : DB) : String × DB :=
  let db1 : DB :=
    { db with
      drafts := db.drafts ++
        [{ id := fresh_id, thread_id := thread_id, message_id := message_id,
           to_addr := to_addr, cc_addr := cc_addr, subject := subject,
           body := body, claude_reasoning := claude_reasoning,
           created_at := db.clock }],
      clock := db.clock + 1 }
  (fresh_id, audit_log_entry "create" "draft" fresh_id none none none db1)

/-- src/comms/drafts.py `approve_draft`: unconditional
`UPDATE drafts SET approved_at = ? WHERE id = ?` plus an audit entry. -/
def approve_draft (draft_id : String) (db : DB) : DB :=
  let db1 : DB :=
    { db with
      drafts := db.drafts.map (fun d =>
        if d.id == draft_id then { d with approved_at := some db.clock } else d),
      clock := db.clock + 1 }
  audit_log_entry "approve" "draft" draft_id none none none db1

/-- src/comms/drafts.py `mark_sent`: unconditional
`UPDATE drafts SET sent_at = ? WHERE id = ?` plus an audit entry. -/
def mark_sent (draft_id : String) (db : DB) : DB :=
  let db1 : DB :=
    { db with
      drafts := db.drafts.map (fun d =>
        if d.id == draft_id then { d with sent_at := some db.clock } else d),
      clock := db.clock + 1 }
  audit_log_entry "send" "draft" draft_id none none none db1

/-- The `policy` config block (defaults in src/comms/config.py
`get_policy`). -/
structure Policy where
  allowed_recipients : List String := []
  allowed_domains : List String := []
  require_approval : Bool := true
  max_daily_sends : Nat := 50
  auto_approve : AutoApprovePolicy := {}
  deriving Repr, DecidableEq

/-- Modelled from the spec: the recipient domain used by the allowlist
check of the absent src/comms/policy.py — the address part after the last
"@" (the whole address when no "@" occurs). -/
def domain_of (addr : String) : String :=
  String.mk ((addr.toList.reverse.takeWhile (fun c => c ≠ '@')).reverse)

/-- Drafts whose `sent_at` falls on the current calendar day; `dayOf`
abstracts the bucketing of instants into days. -/
def sent_today_count (dayOf : Nat → Nat) (db : DB) : Nat :=
  (db.drafts.filter (fun d =>
    match d.sent_at with
    | some t => dayOf t == dayOf db.clock
    | none => false)).length

/-- Modelled from the spec: `policy.validate_send` (src/comms/policy.py is
absent from src/).  Spec section 4.1 and the unit tests of
src/tests/unit/test_core.py fix the contract: evaluate ALL of (a) approval
required, (b) recipient/domain allowlist, (c) daily quota strictly below
`max_daily_sends`, and return every violated check's message together. -/
def validate_send (pol : Policy) (dayOf : Nat → Nat) (db : DB)
    (draft_id to_addr : String) : Bool × List String :=
  let approval_errors :=
    if pol.require_approval then
      match get_draft draft_id db with
      | some d =>
          if d.approved_at.isSome then []
          else ["draft requires approval before sending"]
      | none => ["draft requires approval before sending"]
    else []
  let recipient_errors :=
    if pol.allowed_recipients.isEmpty && pol.allowed_domains.isEmpty then []
    else if pol.allowed_recipients.contains to_addr then []
    else if pol.allowed_domains.contains (domain_of to_addr) then []
    else ["recipient \u0027" ++ to_addr ++ "\u0027 not in allowlist"]
  let quota_errors :=
    if sent_today_count dayOf db < pol.max_daily_sends then []
    else ["daily send limit reached (" ++ toString pol.max_daily_sends ++ ")"]
  let errors := approval_errors ++ recipient_errors ++ quota_errors
  (errors.isEmpty, errors)

/-- The approval check of `validate_send`, in isolation. -/
def approval_violated (pol : Policy) (db : DB) (draft_id : String) : Bool :=
  pol.require_approval &&
    !(match get_draft draft_id db with
      | some d => d.approved_at.isSome
      | none => false)

/-- The recipient/domain allowlist check of `validate_send`, in isolation. -/
def recipient_violated (pol : Policy) (to_addr : String) : Bool :=
  !(pol.allowed_recipients.isEmpty && pol.allowed_domains.isEmpty)
    && !(pol.allowed_recipients.contains to_addr)
    && !(pol.allowed_domains.contains (domain_of to_addr))

/-- The daily quota check of `validate_send`, in isolation. -/
def quota_violated (pol : Policy) (dayOf : Nat → Nat) (db : DB) : Bool :=
  decide (pol.max_daily_sends ≤ sent_today_count dayOf db)

theorem validate_send_snd (pol : Policy) (dayOf : Nat → Nat) (db : DB)
    (draft_id to_addr : String) :
    (validate_send pol dayOf db draft_id to_addr).snd
      = (cond (approval_violated pol db draft_id)
            ["draft requires approval before sending"] [])
        ++ (cond (recipient_violated pol to_addr)
            ["recipient \u0027" ++ to_addr ++ "\u0027 not in allowlist"] [])
        ++ (cond (quota_violated pol dayOf db)
            ["daily send limit reached (" ++ toString pol.max_daily_sends ++ ")"]
            []) := by
  rcases hd : get_draft draft_id db with _ | d
  · by_cases h1 : pol.require_approval = true <;>
      by_cases h3 :
        (pol.allowed_recipients.isEmpty && pol.allowed_domains.isEmpty) = true <;>
      by_cases h4 : to_addr ∈ pol.allowed_recipients <;>
      by_cases h5 : domain_of to_addr ∈ pol.allowed_domains <;>
      by_cases h6 : sent_today_count dayOf db < pol.max_daily_sends <;>
      simp [validate_send, approval_violated, recipient_violated, quota_violated,
        h1, h3, h4, h5, h6, hd, ← Nat.not_lt, Bool.cond_decide]
  · by_cases h2 : d.approved_at.isSome = true <;>
      by_cases h1 : pol.require_approval = true <;>
      by_cases h3 :
        (pol.allowed_recipients.isEmpty && pol.allowed_domains.isEmpty) = true <;>
      by_cases h4 : to_addr ∈ pol.allowed_recipients <;>
      by_cases h5 : domain_of to_addr ∈ pol.allowed_domains <;>
      by_cases h6 : sent_today_count dayOf db < pol.max_daily_sends <;>
      simp [validate_send, approval_violated, recipient_violated, quota_violated,
        h1, h2, h3, h4, h5, h6, hd, ← Nat.not_lt, Bool.cond_decide]

/-- Claim C5: `validate_send` evaluates all of its checks and returns every
violated check's message together in one list (exactly one entry per
violated check, never short-circuiting); the quota violation contributes an
error string beginning "daily send limit reached"; and the call is allowed
iff the error list is empty. -/
theorem c5_validate_send_collects (pol : Policy) (dayOf : Nat → Nat) (db : DB)
    (draft_id to_addr : String) :
    ((validate_send pol dayOf db draft_id to_addr).fst = true ↔
      (validate_send pol dayOf db draft_id to_addr).snd = []) ∧
    (approval_violated pol db draft_id = true →
      "draft requires approval before sending"
        ∈ (validate_send pol dayOf db draft_id to_addr).snd) ∧
    (recipient_violated pol to_addr = true →
      ("recipient \u0027" ++ to_addr ++ "\u0027 not in allowlist")
        ∈ (validate_send pol dayOf db draft_id to_addr).snd) ∧
    (quota_violated pol dayOf db = true →
      ∃ rest, ("daily send limit reached" ++ rest)
        ∈ (validate_send pol dayOf db draft_id to_addr).snd) ∧
    (validate_send pol dayOf db draft_id to_addr).snd.length
      = (cond (approval_violated pol db draft_id) 1 0)
        + (cond (recipient_violated pol to_addr) 1 0)
        + (cond (quota_violated pol dayOf db) 1 0) := by
  have hfst : (validate_send pol dayOf db draft_id to_addr).fst
      = (validate_send pol dayOf db draft_id to_addr).snd.isEmpty := rfl
  have hsnd := validate_send_snd pol dayOf db draft_id to_addr
  refine ⟨?_, ?_, ?_, ?_, ?_⟩
  · rw [hfst]
    simp [List.isEmpty_iff]
  · intro hv
    rw [hsnd]
    simp [hv]
  · intro hv
    rw [hsnd]
    simp [hv]
  · intro hv
    refine ⟨" (" ++ toString pol.max_daily_sends ++ ")", ?_⟩
    rw [hsnd]
    have hmsg : "daily send limit reached" ++ (" (" ++ toString pol.max_daily_sends ++ ")")
        = "daily send limit reached (" ++ toString pol.max_daily_sends ++ ")" := by
      rw [← String.append_assoc]
      rfl
    rw [hmsg]
    simp [hv]
  · rw [hsnd]
    cases approval_violated pol db draft_id <;>
      cases recipient_violated pol to_addr <;>
      cases quota_violated pol dayOf db <;> simp

def polC5W : Policy :=
  { allowed_recipients := ["allowed@example.com"], require_approval := true,
    max_daily_sends := 1 }

/-- One draft already sent today, and an unapproved draft "d2" addressed to
an unallowlisted recipient. -/
def dbC5W : DB :=
  { drafts :=
      [{ id := "d1", to_addr := "allowed@example.com", subject := "s1",
         body := "b1", sent_at := some 5 },
       { id := "d2", to_addr := "person@example.com", subject := "s2",
         body := "b2" }],
    clock := 7 }

def dayC5W : Nat → Nat := fun _ => 0

/-- Witness for C5: with approval, allowlist and quota all violated at
once, all three messages are present and the error list has exactly three
entries. -/
theorem c5_validate_send_collects_witness :
    "draft requires approval before sending"
      ∈ (validate_send polC5W dayC5W dbC5W "d2" "person@example.com").snd ∧
    "recipient \u0027person@example.com\u0027 not in allowlist"
      ∈ (validate_send polC5W dayC5W dbC5W "d2" "person@example.com").snd ∧
    (∃ rest, ("daily send limit reached" ++ rest)
      ∈ (validate_send polC5W dayC5W dbC5W "d2" "person@example.com").snd) ∧
    (validate_send polC5W dayC5W dbC5W "d2" "person@example.com").snd.length
      = 3 := by
  have h := c5_validate_send_collects polC5W dayC5W dbC5W "d2" "person@example.com"
  refine ⟨h.2.1 (by decide), h.2.2.1 (by decide), h.2.2.2.1 (by decide), ?_⟩
  rw [h.2.2.2.2]
  decide

/-- An account record (src/comms/accounts.py is absent from src/): the
fields read by src/comms/services.py and src/comms/proposals.py. -/
structure Account where
  id : String
  provider : String
  email : String
  deriving Repr, DecidableEq

/-- External collaborators of the draft send path: the account store
(src/comms/accounts.py, absent from src/) and the provider adapter
`send_message` capability (spec section 6). -/
structure SendEnv where
  get_account_by_id : String → Option Account
  send_message : String → String → Draft → Bool

/-- src/comms/services.py `send_draft`; a raised ValueError is modelled as
`Except.error` carrying its message.  The policy engine consulted through
`policy.validate_send` is the spec-modelled `validate_send` above. -/
def send_draft (env : SendEnv) (pol : Policy) (dayOf : Nat → Nat)
    (draft_id : String) (db : DB) : Except String DB :=
  match get_draft draft_id db with
  | none => .error ("Draft " ++ draft_id ++ " not found")
  | some d =>
    if d.sent_at.isSome then .error "Draft already sent"
    else
      match d.from_account_id, d.from_addr with
      | some acct_id, some from_addr =>
          let v := validate_send pol dayOf db draft_id d.to_addr
          if !v.fst then .error (String.intercalate "; " v.snd)
          else
            match env.get_account_by_id acct_id with
            | none => .error ("Account not found: " ++ acct_id)
            | some account =>
                if account.provider == "gmail" || account.provider == "outlook" then
                  if env.send_message account.id from_addr d then
                    .ok (mark_sent draft_id db)
                  else .error "Failed to send"
                else .error ("Provider " ++ account.provider ++ " not supported")
      | _, _ => .error "Draft missing source account info"

theorem find?_id_map_draft (u : Draft → Draft) (hu : ∀ d, (u d).id = d.id)
    (l : List Draft) (i : String) :
    (l.map u).find? (fun d => d.id == i) = (l.find? (fun d => d.id == i)).map u := by
  rw [List.find?_map]
  have hfun : ((fun d : Draft => d.id == i) ∘ u) = (fun d : Draft => d.id == i) := by
    funext d
    simp [Function.comp, hu]
  rw [hfun]

theorem find?_update_of_found_draft (l : List Draft) (i : String)
    (upd : Draft → Draft) (hupd : ∀ d, (upd d).id = d.id)
    (q : Draft) (hq : l.find? (fun d => d.id == i) = some q) :
    (l.map (fun d => if d.id == i then upd d else d)).find? (fun d => d.id == i)
      = some (upd q) := by
  have hu : ∀ d : Draft,
      ((fun d : Draft => if d.id == i then upd d else d) d).id = d.id := by
    intro d
    by_cases h : (d.id == i) = true <;> simp [h, hupd]
  rw [find?_id_map_draft _ hu, hq]
  have hqi := List.find?_some hq
  show some (if (q.id == i) = true then upd q else q) = some (upd q)
  rw [if_pos hqi]

/-- A fresh draft, created and then marked sent without ever being
approved — the exact operation sequence of the repository's own unit test
`test_validate_send_daily_limit`. -/
def dbC8pre : DB :=
  (create_draft "d1" "person@example.com" "hello" "body"
    none none none none ({} : DB)).snd

/-- Claim C8 as stated is false: after `create_draft` followed by the
unguarded `mark_sent`, the draft has `sent_at` set while `approved_at` is
still null, so sent_at does not imply approved_at. -/
theorem c8_counterexample :
    (get_draft "d1" (mark_sent "d1" dbC8pre)).map
      (fun d => (d.sent_at.isSome, d.approved_at.isSome)) = some (true, false) := by
  decide

/-- Claim C8, amended: `approved_at` and `sent_at` are monotonic — once
set, neither `approve_draft` nor `mark_sent` clears them — and a send that
goes through `send_draft` under a policy with `require_approval = true`
only succeeds for a draft whose `approved_at` is already set (so sent_at
implies approved_at for policy-gated sends); but `mark_sent` itself (and
`send_draft` when `require_approval` is false) sets `sent_at` with no
approval requirement. -/
theorem c8_amended (db : DB) (i : String) :
    (∀ d ∈ db.drafts, ∃ d2 ∈ (approve_draft i db).drafts, d2.id = d.id ∧
        (d.approved_at.isSome → d2.approved_at.isSome) ∧
        d2.sent_at = d.sent_at) ∧
    (∀ d ∈ db.drafts, ∃ d2 ∈ (mark_sent i db).drafts, d2.id = d.id ∧
        d2.approved_at = d.approved_at ∧
        (d.sent_at.isSome → d2.sent_at.isSome)) ∧
    (∀ env pol dayOf db2, send_draft env pol dayOf i db = .ok db2 →
        ∃ d, get_draft i db = some d ∧
          (pol.require_approval = true → d.approved_at.isSome = true) ∧
          ∃ d2, get_draft i db2 = some d2 ∧ d2.sent_at.isSome = true ∧
            d2.approved_at = d.approved_at) := by
  refine ⟨?_, ?_, ?_⟩
  · intro d hd
    refine ⟨(fun d : Draft =>
        if d.id == i then { d with approved_at := some db.clock } else d) d,
      List.mem_map_of_mem _ hd, ?_⟩
    by_cases hc : (d.id == i) = true <;> simp [hc]
  · intro d hd
    refine ⟨(fun d : Draft =>
        if d.id == i then { d with sent_at := some db.clock } else d) d,
      List.mem_map_of_mem _ hd, ?_⟩
    by_cases hc : (d.id == i) = true <;> simp [hc]
  · intro env pol dayOf db2 h
    simp only [send_draft] at h
    split at h
    · exact absurd h (by simp)
    · rename_i d hd
      split at h
      · exact absurd h (by simp)
      · rename_i hs
        split at h
        · rename_i acct_id from_addr heq
          split at h
          · exact absurd h (by simp)
          · rename_i hv
            split at h
            · exact absurd h (by simp)
            · rename_i account hacct
              split at h
              · split at h
                · rename_i hprov hsendok
                  have hdb2 : db2 = mark_sent i db := by
                    injection h with h2
                    exact h2.symm
                  refine ⟨d, hd, ?_, ?_⟩
                  · intro hra
                    have hfst : (validate_send pol dayOf db i d.to_addr).fst = true := by
                      rcases hb : (validate_send pol dayOf db i d.to_addr).fst
                      · rw [hb] at hv
                        simp at hv
                      · rfl
                    have hempty : (validate_send pol dayOf db i d.to_addr).snd = [] := by
                      have : (validate_send pol dayOf db i d.to_addr).snd.isEmpty = true := hfst
                      simpa [List.isEmpty_iff] using this
                    rw [validate_send_snd] at hempty
                    rcases List.append_eq_nil.mp
                      (List.append_eq_nil.mp hempty).1 with ⟨hA, _⟩
                    rcases hav : approval_violated pol db i with _ | _
                    · simp only [approval_violated, Bool.and_eq_false_iff] at hav
                      rcases hav with hav | hav
                      · rw [hra] at hav
                        exact absurd hav (by simp)
                      · rw [hd] at hav
                        simpa using hav
                    · rw [hav] at hA
                      simp at hA
                  · have hq2 : db.drafts.find? (fun x => x.id == i) = some d := hd
                    have hfind := find?_update_of_found_draft db.drafts i
                      (fun x => { x with sent_at := some db.clock })
                      (fun x => rfl) d hq2
                    refine ⟨{ d with sent_at := some db.clock }, ?_, rfl, rfl⟩
                    rw [hdb2]
                    show (mark_sent i db).drafts.find? (fun x => x.id == i)
                      = some { d with sent_at := some db.clock }
                    have hdrafts : (mark_sent i db).drafts
                        = db.drafts.map (fun x =>
                            if x.id == i then { x with sent_at := some db.clock }
                            else x) := rfl
                    rw [hdrafts]
                    exact hfind
                · exact absurd h (by simp)
              · exact absurd h (by simp)
        · exact absurd h (by simp)

def polC8W : Policy :=
  { require_approval := true }

def dC8W : Draft :=
  { id := "d1", to_addr := "x@y.z", subject := "s", body := "b",
    approved_at := some 2, from_account_id := some "acc1",
    from_addr := some "me@y.z" }

def dbC8W : DB :=
  { drafts := [dC8W], clock := 6 }

def envC8W : SendEnv :=
  { get_account_by_id := fun a =>
      if a == "acc1" then some { id := "acc1", provider := "gmail", email := "me@y.z" }
      else none,
    send_message := fun _ _ _ => true }

def dayC8W : Nat → Nat := fun _ => 0

/-- Witness for the amended C8 theorem: approval of a concrete draft keeps
sent_at intact, and a successful policy-gated send of an approved draft
yields sent_at and approved_at both set. -/
theorem c8_amended_witness :
    (∃ d2 ∈ (approve_draft "d1" dbC8W).drafts, d2.id = dC8W.id ∧
        (dC8W.approved_at.isSome → d2.approved_at.isSome) ∧
        d2.sent_at = dC8W.sent_at) ∧
    (∃ d, get_draft "d1" dbC8W = some d ∧
        (polC8W.require_approval = true → d.approved_at.isSome = true) ∧
        ∃ d2, get_draft "d1" (mark_sent "d1" dbC8W) = some d2 ∧
          d2.sent_at.isSome = true ∧ d2.approved_at = d.approved_at) := by
  constructor
  · exact (c8_amended dbC8W "d1").1 dC8W (by decide)
  · exact (c8_amended dbC8W "d1").2.2 envC8W polC8W dayC8W
      (mark_sent "d1" dbC8W) (by rfl)

/-! The proposal executor (src/comms/services.py `execute_approved_proposals`).
Only a raised ValueError is caught by the per-item handler; the provider
adapters report failure by returning false (spec section 6), so per-item
outcomes are modelled as `Except String Unit`. -/

/-- src/comms/services.py `ProposalExecution`. -/
structure ProposalExecution where
  proposal_id : String
  action : String
  entity_type : String
  entity_id : String
  success : Bool
  error : Option String
  deriving Repr, DecidableEq

/-- External collaborators of the executor: the account selector
(src/comms/accounts.py, absent from src/), the per-provider thread
mutation adapters keyed by provider, action, thread id and account email,
and the signal mark-read call (src/comms/adapters/messaging/signal.py,
absent from src/). -/
structure ExecEnv where
  select_email_account : Option String → Option Account × String
  thread_action_success : String → String → String → String → Bool
  signal_mark_read : String → Except String Unit

/-- src/comms/services.py `_resolve_email_account`: the selected account,
or a raised ValueError (`error or "No email account found"`). -/
def resolve_email_account (env : ExecEnv) (email : Option String) :
    Except String Account :=
  match env.select_email_account email with
  | (some account, _) => .ok account
  | (none, error) => .error (if error == "" then "No email account found" else error)

/-- The keys of src/comms/services.py `_get_thread_action`'s action map. -/
def THREAD_ACTION_NAMES : List String :=
  ["archive", "delete", "flag", "unflag", "unarchive", "undelete"]

/-- src/comms/services.py `thread_action`: resolve the account, look up the
adapter (gmail/outlook only) and the action function, call it, and raise on
a false return. -/
def thread_action (env : ExecEnv) (action thread_id : String)
    (email : Option String) : Except String Unit :=
  match resolve_email_account env email with
  | .error e => .error e
  | .ok account =>
      if account.provider == "gmail" || account.provider == "outlook" then
        if THREAD_ACTION_NAMES.contains action then
          if env.thread_action_success account.provider action thread_id account.email
          then .ok ()
          else .error ("Failed to " ++ action ++ " thread")
        else .error ("Unknown action: " ++ action)
      else .error ("Provider " ++ account.provider ++ " not supported")

/-- src/comms/services.py `_execute_signal_action`. -/
def execute_signal_action (env : ExecEnv) (action message_id : String) :
    Except String Unit :=
  if action == "mark_read" || action == "ignore" then
    env.signal_mark_read message_id
  else .error ("Unknown signal action: " ++ action)

/-- The body of the executor's per-proposal try block, up to and excluding
`mark_executed`: dispatch on entity_type, resolving a default account for
threads without an explicit one. -/
def attempt_execution (env : ExecEnv) (p : Proposal) : Except String Unit :=
  if p.entity_type == "thread" then
    match p.email with
    | some e => thread_action env p.proposed_action p.entity_id (some e)
    | none =>
        match resolve_email_account env none with
        | .error err => .error err
        | .ok account =>
            thread_action env p.proposed_action p.entity_id (some account.email)
  else if p.entity_type == "signal_message" then
    execute_signal_action env p.proposed_action p.entity_id
  else .error ("Unknown entity type: " ++ p.entity_type)

/-- The `ProposalExecution` record the loop appends for one proposal. -/
def execution_result (p : Proposal) (r : Except String Unit) : ProposalExecution :=
  match r with
  | .ok _ =>
      { proposal_id := p.id, action := p.proposed_action,
        entity_type := p.entity_type, entity_id := p.entity_id,
        success := true, error := none }
  | .error e =>
      { proposal_id := p.id, action := p.proposed_action,
        entity_type := p.entity_type, entity_id := p.entity_id,
        success := false, error := some e }

/-- One iteration of the executor loop: on success `mark_executed` then a
success record; on a caught ValueError a failure record with the message,
leaving the store untouched. -/
def exec_step (env : ExecEnv) (st : DB × List ProposalExecution)
    (p : Proposal) : DB × List ProposalExecution :=
  match attempt_execution env p with
  | .ok _ =>
      ((mark_executed p.id st.fst).snd,
        st.snd ++ [execution_result p (.ok ())])
  | .error e => (st.fst, st.snd ++ [execution_result p (.error e)])

/-- src/comms/services.py `execute_approved_proposals`: fetch the approved
snapshot (oldest approval first), then loop with per-item isolation. -/
def execute_approved_proposals (env : ExecEnv) (db : DB) :
    DB × List ProposalExecution :=
  (get_approved_proposals db).foldl (exec_step env) (db, [])

instance : IsTotal Proposal (fun a b => approvedKey a ≤ approvedKey b) :=
  ⟨fun a b => Nat.le_total (approvedKey a) (approvedKey b)⟩

instance : IsTrans Proposal (fun a b => approvedKey a ≤ approvedKey b) :=
  ⟨fun _ _ _ => Nat.le_trans⟩

theorem mark_executed_proposals (j : String) (d : DB) :
    (mark_executed j d).snd.proposals
      = d.proposals.map (fun p =>
          if p.id == j then
            { p with status := "executed", executed_at := some d.clock }
          else p) := by
  simp only [mark_executed]
  split <;> rfl

theorem mark_executed_find_ne (i j : String) (hne : i ≠ j) (d : DB) :
    (mark_executed j d).snd.proposals.find? (fun p => p.id == i)
      = d.proposals.find? (fun p => p.id == i) := by
  rw [mark_executed_proposals]
  have hu : ∀ p : Proposal,
      ((fun p : Proposal =>
        if p.id == j then
          { p with status := "executed", executed_at := some d.clock }
        else p) p).id = p.id := by
    intro p
    by_cases h : (p.id == j) = true <;> simp [h]
  rw [find?_id_map _ hu]
  cases hf : d.proposals.find? (fun p => p.id == i) with
  | none => rfl
  | some q =>
      have hqi : q.id = i := by
        simpa using List.find?_some hf
      have hqj : (q.id == j) = false := by
        simp [hqi, hne]
      simp [Option.map, hqj]

theorem exec_foldl_results (env : ExecEnv) (l : List Proposal) (d : DB)
    (acc : List ProposalExecution) :
    (l.foldl (exec_step env) (d, acc)).snd
      = acc ++ l.map (fun p => execution_result p (attempt_execution env p)) := by
  induction l generalizing d acc with
  | nil => simp
  | cons p t ih =>
      simp only [List.foldl_cons]
      cases hr : attempt_execution env p <;>
        simp [exec_step, hr, ih, List.append_assoc]

theorem exec_foldl_find_ne (env : ExecEnv) (l : List Proposal) (i : String)
    (hne : ∀ p ∈ l, p.id ≠ i) (d : DB) (acc : List ProposalExecution) :
    (l.foldl (exec_step env) (d, acc)).fst.proposals.find? (fun p => p.id == i)
      = d.proposals.find? (fun p => p.id == i) := by
  induction l generalizing d acc with
  | nil => rfl
  | cons p t ih =>
      have hpi : p.id ≠ i := hne p (List.mem_cons_self p t)
      have hrest : ∀ q ∈ t, q.id ≠ i :=
        fun q hq => hne q (List.mem_cons_of_mem p hq)
      simp only [List.foldl_cons]
      cases hr : attempt_execution env p <;>
        simp only [exec_step, hr] <;>
        rw [ih hrest]
      exact mark_executed_find_ne i p.id (fun h => hpi h.symm) d

/-- Membership in the approved snapshot gives membership and the status
predicate in the underlying table. -/
theorem mem_get_approved (db : DB) (p : Proposal)
    (hp : p ∈ get_approved_proposals db) :
    p ∈ db.proposals ∧ p.status = "approved" := by
  have hmem : p ∈ db.proposals.filter (fun p => p.status == "approved") :=
    (List.perm_insertionSort _ _).mem_iff.mp hp
  have := List.mem_filter.mp hmem
  exact ⟨this.1, by simpa using this.2⟩

/-- Ids are still distinct in the approved snapshot. -/
theorem approved_ids_nodup (db : DB)
    (hnd : (db.proposals.map Proposal.id).Nodup) :
    ((get_approved_proposals db).map Proposal.id).Nodup := by
  have hfil : ((db.proposals.filter
      (fun p => p.status == "approved")).map Proposal.id).Nodup :=
    List.Nodup.sublist ((List.filter_sublist _).map Proposal.id) hnd
  exact ((List.perm_insertionSort _ _).map Proposal.id).nodup_iff.mpr hfil

theorem exec_status_of_ok (env : ExecEnv) (db : DB)
    (hnd : (db.proposals.map Proposal.id).Nodup) (p : Proposal)
    (hp : p ∈ get_approved_proposals db)
    (hok : attempt_execution env p = .ok ()) :
    (get_proposal p.id (execute_approved_proposals env db).fst).map
      Proposal.status = some "executed" := by
  obtain ⟨s, t, hst⟩ := List.append_of_mem hp
  have hnodup := approved_ids_nodup db hnd
  rw [hst] at hnodup
  rw [List.map_append, List.map_cons] at hnodup
  rw [List.nodup_append] at hnodup
  obtain ⟨hs, hpt, hdisj⟩ := hnodup
  have hsne : ∀ q ∈ s, q.id ≠ p.id := by
    intro q hq h
    exact (hdisj (h ▸ List.mem_map_of_mem Proposal.id hq)
      (List.mem_cons_self _ _))
  have htne : ∀ q ∈ t, q.id ≠ p.id := by
    intro q hq h
    have := List.nodup_cons.mp hpt
    exact this.1 (h ▸ List.mem_map_of_mem Proposal.id hq)
  have hfound : ∃ q, db.proposals.find? (fun x => x.id == p.id) = some q := by
    have hmem := (mem_get_approved db p hp).1
    have : (db.proposals.find? (fun x => x.id == p.id)).isSome :=
      List.find?_isSome.mpr ⟨p, hmem, by simp⟩
    exact Option.isSome_iff_exists.mp this
  obtain ⟨q, hq⟩ := hfound
  have hq1 : (s.foldl (exec_step env) (db, [])).fst.proposals.find?
      (fun x => x.id == p.id) = some q := by
    rw [exec_foldl_find_ne env s p.id hsne db []]
    exact hq
  show ((execute_approved_proposals env db).fst.proposals.find?
      (fun x => x.id == p.id)).map Proposal.status = some "executed"
  unfold execute_approved_proposals
  rw [hst, List.foldl_append, List.foldl_cons]
  simp only [exec_step, hok]
  rw [exec_foldl_find_ne env t p.id htne]
  rw [mark_executed_proposals]
  rw [find?_update_of_found (s.foldl (exec_step env) (db, [])).fst.proposals p.id
    (fun x => { x with
                status := "executed",
                executed_at := some (s.foldl (exec_step env) (db, [])).fst.clock })
    (fun x => rfl) q hq1]
  rfl

theorem exec_status_of_error (env : ExecEnv) (db : DB)
    (hnd : (db.proposals.map Proposal.id).Nodup) (p : Proposal)
    (hp : p ∈ get_approved_proposals db) (e : String)
    (herr : attempt_execution env p = .error e) :
    (get_proposal p.id (execute_approved_proposals env db).fst).map
      Proposal.status = some "approved" := by
  obtain ⟨s, t, hst⟩ := List.append_of_mem hp
  have hnodup := approved_ids_nodup db hnd
  rw [hst] at hnodup
  rw [List.map_append, List.map_cons] at hnodup
  rw [List.nodup_append] at hnodup
  obtain ⟨hs, hpt, hdisj⟩ := hnodup
  have hsne : ∀ q ∈ s, q.id ≠ p.id := by
    intro q hq h
    exact (hdisj (h ▸ List.mem_map_of_mem Proposal.id hq)
      (List.mem_cons_self _ _))
  have htne : ∀ q ∈ t, q.id ≠ p.id := by
    intro q hq h
    have := List.nodup_cons.mp hpt
    exact this.1 (h ▸ List.mem_map_of_mem Proposal.id hq)
  obtain ⟨hpmem, hpstat⟩ := mem_get_approved db p hp
  have hfound : ∃ q, db.proposals.find? (fun x => x.id == p.id) = some q := by
    have : (db.proposals.find? (fun x => x.id == p.id)).isSome :=
      List.find?_isSome.mpr ⟨p, hpmem, by simp⟩
    exact Option.isSome_iff_exists.mp this
  obtain ⟨q, hq⟩ := hfound
  have hqid : q.id = p.id := by
    simpa using List.find?_some hq
  have hqmem : q ∈ db.proposals := List.mem_of_find?_eq_some hq
  have hqp : q = p := List.inj_on_of_nodup_map hnd hqmem hpmem hqid
  show ((execute_approved_proposals env db).fst.proposals.find?
      (fun x => x.id == p.id)).map Proposal.status = some "approved"
  unfold execute_approved_proposals
  rw [hst, List.foldl_append, List.foldl_cons]
  simp only [exec_step, herr]
  rw [exec_foldl_find_ne env t p.id htne]
  rw [exec_foldl_find_ne env s p.id hsne db []]
  rw [hq, hqp]
  simp [hpstat]

/-- Claim C3: the executor pulls exactly the approved proposals, oldest
approval first, and handles each independently — the result list records
one outcome per approved proposal in order, a success is marked executed,
and a failure keeps its error message while the proposal stays approved
for the next pass; no failure aborts the remaining proposals. -/
theorem c3_executor_isolation (env : ExecEnv) (db : DB)
    (hnd : (db.proposals.map Proposal.id).Nodup) :
    List.Sorted (fun a b => approvedKey a ≤ approvedKey b)
      (get_approved_proposals db) ∧
    List.Perm (get_approved_proposals db)
      (db.proposals.filter (fun p => p.status == "approved")) ∧
    (execute_approved_proposals env db).snd
      = (get_approved_proposals db).map
          (fun p => execution_result p (attempt_execution env p)) ∧
    (∀ p ∈ get_approved_proposals db, attempt_execution env p = .ok () →
      (get_proposal p.id (execute_approved_proposals env db).fst).map
        Proposal.status = some "executed") ∧
    (∀ p ∈ get_approved_proposals db, ∀ e,
      attempt_execution env p = .error e →
      execution_result p (.error e) ∈ (execute_approved_proposals env db).snd ∧
      (get_proposal p.id (execute_approved_proposals env db).fst).map
        Proposal.status = some "approved") := by
  have hres : (execute_approved_proposals env db).snd
      = (get_approved_proposals db).map
          (fun p => execution_result p (attempt_execution env p)) := by
    simpa using exec_foldl_results env (get_approved_proposals db) db []
  refine ⟨?_, ?_, hres, ?_, ?_⟩
  · exact List.sorted_insertionSort _ _
  · exact List.perm_insertionSort _ _
  · exact fun p hp hok => exec_status_of_ok env db hnd p hp hok
  · intro p hp e herr
    refine ⟨?_, exec_status_of_error env db hnd p hp e herr⟩
    rw [hres]
    have hmem : execution_result p (attempt_execution env p)
        ∈ List.map (fun p => execution_result p (attempt_execution env p))
          (get_approved_proposals db) :=
      List.mem_map_of_mem _ hp
    rw [herr] at hmem
    exact hmem

def envC3W : ExecEnv :=
  { select_email_account := fun _ =>
      (some { id := "a1", provider := "gmail", email := "me@x.y" }, ""),
    thread_action_success := fun _ _ _ _ => false,
    signal_mark_read := fun _ => .ok () }

def pC3a : Proposal :=
  { id := "p1", entity_type := "thread", entity_id := "t1",
    proposed_action := "archive", email := some "me@x.y",
    status := "approved", approved_at := some 1 }

def pC3b : Proposal :=
  { id := "p2", entity_type := "signal_message", entity_id := "m1",
    proposed_action := "mark_read", status := "approved",
    approved_at := some 2 }

def dbC3W : DB :=
  { proposals := [pC3a, pC3b], clock := 5 }

/-- Witness for C3 — the spec's own example: the first (older) proposal's
provider call fails, the second succeeds; the result list is
[failure, success], the second proposal is marked executed, the first
remains approved. -/
theorem c3_executor_isolation_witness :
    (execute_approved_proposals envC3W dbC3W).snd
      = [execution_result pC3a (.error "Failed to archive thread"),
         execution_result pC3b (.ok ())] ∧
    (get_proposal "p2" (execute_approved_proposals envC3W dbC3W).fst).map
      Proposal.status = some "executed" ∧
    (get_proposal "p1" (execute_approved_proposals envC3W dbC3W).fst).map
      Proposal.status = some "approved" := by
  have h := c3_executor_isolation envC3W dbC3W (by decide)
  refine ⟨?_, ?_, ?_⟩
  · rw [h.2.2.1]
    decide
  · exact h.2.2.2.1 pC3b (by decide) (by rfl)
  · exact (h.2.2.2.2 pC3a (by decide) "Failed to archive thread" (by rfl)).2

/-! Proposal creation (src/comms/proposals.py `create_proposal` and its
validators). -/

/-- src/comms/proposals.py `VALID_THREAD_ACTIONS` (a Python set; only
membership is used). -/
def VALID_THREAD_ACTIONS : List String :=
  ["archive", "delete", "flag", "unflag", "unarchive", "undelete"]

/-- src/comms/proposals.py `VALID_DRAFT_ACTIONS`. -/
def VALID_DRAFT_ACTIONS : List String :=
  ["approve", "send", "delete"]

/-- src/comms/proposals.py `VALID_SIGNAL_ACTIONS`. -/
def VALID_SIGNAL_ACTIONS : List String :=
  ["mark_read", "ignore"]

/-- src/comms/proposals.py `_validate_action`.  The listing of the valid
set inside the message is elided: Python set reprs have nondeterministic
order and no code branches on the text. -/
def validate_action (entity_type proposed_action : String) : Bool × String :=
  if entity_type == "thread" then
    if VALID_THREAD_ACTIONS.contains proposed_action then (true, "")
    else (false, "Invalid action \u0027" ++ proposed_action ++ "\u0027 for thread")
  else if entity_type == "draft" then
    if VALID_DRAFT_ACTIONS.contains proposed_action then (true, "")
    else (false, "Invalid action \u0027" ++ proposed_action ++ "\u0027 for draft")
  else if entity_type == "signal_message" then
    if VALID_SIGNAL_ACTIONS.contains proposed_action then (true, "")
    else (false,
      "Invalid action \u0027" ++ proposed_action ++ "\u0027 for signal_message")
  else (false, "Unknown entity_type: " ++ entity_type)

/-- A thread message as returned by the mail adapter; entity validation
only inspects presence. -/
structure ThreadMessage where
  subject : String := ""
  sender : String := ""
  deriving Repr, DecidableEq

/-- External collaborators of src/comms/proposals.py `_validate_entity`:
the account selector (src/comms/accounts.py, absent from src/), the gmail
thread fetch (whose exceptions are caught as "Failed to validate thread"),
and the signal message store (src/comms/adapters/messaging/signal.py,
absent from src/). -/
structure CreateEnv where
  select_email_account : Option String → Option Account × String
  gmail_fetch_thread_messages :
    String → Option String → Except String (List ThreadMessage)
  signal_get_message : String → Option ThreadMessage

/-- src/comms/proposals.py `_validate_entity`. -/
def validate_entity (env : CreateEnv) (entity_type entity_id : String)
    (email : Option String) (db : DB) : Bool × String :=
  if entity_type == "thread" then
    match env.select_email_account email with
    | (none, error) =>
        (false, if error == "" then "No email account found" else error)
    | (some account, _) =>
        if account.provider == "gmail" then
          match env.gmail_fetch_thread_messages entity_id email with
          | .ok msgs =>
              if msgs.isEmpty then (false, "Thread " ++ entity_id ++ " not found")
              else (true, "")
          | .error e => (false, "Failed to validate thread: " ++ e)
        else
          (false, "Provider " ++ account.provider ++ " not supported for validation")
  else if entity_type == "draft" then
    match get_draft entity_id db with
    | none => (false, "Draft " ++ entity_id ++ " not found")
    | some _ => (true, "")
  else if entity_type == "signal_message" then
    match env.signal_get_message entity_id with
    | none => (false, "Signal message " ++ entity_id ++ " not found")
    | some _ => (true, "")
  else (false, "Unknown entity_type: " ++ entity_type)

/-- The INSERT of `create_proposal`: a new row with status `pending`. -/
def insert_proposal (fresh_id entity_type entity_id proposed_action : String)
    (agent_reasoning email : Option String) (db : DB) : DB :=
  { db with
    proposals := db.proposals ++
      [{ id := fresh_id, entity_type := entity_type, entity_id := entity_id,
         proposed_action := proposed_action,
         agent_reasoning := agent_reasoning, email := email,
         proposed_at := db.clock, status := "pending" }],
    clock := db.clock + 1 }

/-- src/comms/proposals.py `create_proposal` (uuid4 modelled by the
caller-supplied fresh id).  NOTE the return type: the source returns the
PAIR `(proposal_id | None, error)` and contains no auto-approval step and
no policy consultation, while every caller in the repository
(src/comms/cli.py line 719, src/comms/cli/proposals.py line 51,
src/comms/triage.py line 222) unpacks THREE values
`(proposal_id, error, auto_approved)`. -/
def create_proposal (env : CreateEnv) (fresh_id : String)
    (entity_type entity_id proposed_action : String)
    (agent_reasoning email : Option String) (skip_validation : Bool)
    (db : DB) : (Option String × String) × DB :=
  if skip_validation then
    ((some fresh_id, ""),
      insert_proposal fresh_id entity_type entity_id proposed_action
        agent_reasoning email db)
  else
    let va := validate_action entity_type proposed_action
    if va.fst then
      let ve := validate_entity env entity_type entity_id email db
      if ve.fst then
        ((some fresh_id, ""),
          insert_proposal fresh_id entity_type entity_id proposed_action
            agent_reasoning email db)
      else ((none, ve.snd), db)
    else ((none, va.snd), db)

/-- Claim C1 (code bug): whatever the current policy and decision history —
even when the auto-approve gate is satisfied at this instant — a successful
`create_proposal` leaves the new proposal in status `pending`; the source
returns a pair with no auto_approved flag, and no promotion to `approved`
exists on any path. -/
theorem c1_create_proposal_stays_pending (env : CreateEnv)
    (pol : AutoApprovePolicy) (fresh_id et eid act : String)
    (ar em : Option String) (sv : Bool) (db : DB)
    (hgate : auto_approve_gate pol db act = true)
    (hfresh : ∀ p ∈ db.proposals, p.id ≠ fresh_id)
    (hok : (create_proposal env fresh_id et eid act ar em sv db).fst.fst
      = some fresh_id) :
    (get_proposal fresh_id
      (create_proposal env fresh_id et eid act ar em sv db).snd).map
        Proposal.status = some "pending" := by
  have hins : (get_proposal fresh_id
      (insert_proposal fresh_id et eid act ar em db)).map Proposal.status
      = some "pending" := by
    show ((db.proposals ++
        [({ id := fresh_id, entity_type := et, entity_id := eid,
            proposed_action := act, agent_reasoning := ar, email := em,
            proposed_at := db.clock, status := "pending" } : Proposal)]).find?
        (fun p => p.id == fresh_id)).map Proposal.status = some "pending"
    rw [List.find?_append]
    have h1 : db.proposals.find? (fun p => p.id == fresh_id) = none :=
      List.find?_eq_none.mpr (fun p hp => by simp [hfresh p hp])
    rw [h1]
    simp
  by_cases hsv : sv = true
  · simpa [create_proposal, hsv] using hins
  · have hsv2 : sv = false := by
      cases sv
      · rfl
      · exact absurd rfl hsv
    by_cases hva : (validate_action et act).fst = true
    · by_cases hve : (validate_entity env et eid em db).fst = true
      · simpa [create_proposal, hsv2, hva, hve] using hins
      · rw [create_proposal] at hok
        simp [hsv2, hva, hve] at hok
    · rw [create_proposal] at hok
      simp [hsv2, hva] at hok

def envC1W : CreateEnv :=
  { select_email_account := fun _ => (none, ""),
    gmail_fetch_thread_messages := fun _ _ => .error "network down",
    signal_get_message := fun _ => none }

def polC1W : AutoApprovePolicy :=
  { enabled := true, threshold := 1 / 2, min_samples := 1 }

def dbC1W : DB :=
  { audit_log :=
      [{ action := "decision", entity_type := "thread", entity_id := "t1",
         proposed_action := some "archive", user_decision := some "approved" },
       { action := "decision", entity_type := "thread", entity_id := "t2",
         proposed_action := some "archive", user_decision := some "approved" }],
    clock := 4 }

/-- Witness for C1: with the auto-approve gate satisfied for "archive"
(enabled, 2 samples ≥ 1, accuracy 1 ≥ 1/2), a trusted-caller
(skip_validation) creation still returns `(some id, "")` and the stored
proposal is `pending`, not `approved`. -/
theorem c1_create_proposal_stays_pending_witness :
    auto_approve_gate polC1W dbC1W "archive" = true ∧
    (create_proposal envC1W "fid1" "thread" "t1" "archive" none none true
      dbC1W).fst = (some "fid1", "") ∧
    (get_proposal "fid1"
      (create_proposal envC1W "fid1" "thread" "t1" "archive" none none true
        dbC1W).snd).map Proposal.status = some "pending" := by
  have hg : auto_approve_gate polC1W dbC1W "archive" = true := by
    simp +decide [auto_approve_gate, statsFor, decisionRowsFor, decisionRows,
      dbC1W, polC1W]
    norm_num
  refine ⟨hg, by decide, ?_⟩
  exact c1_create_proposal_stays_pending envC1W polC1W "fid1" "thread" "t1"
    "archive" none none true dbC1W hg (by decide) (by decide)

/-- Claim C10: "draft" is a valid entity_type at creation, with exactly the
action set {approve, send, delete}, yet the executor dispatches only
"thread" and "signal_message": every approved draft proposal yields a
failure result with error "Unknown entity type: draft" and remains
approved, never executed. -/
theorem c10_draft_proposals_never_execute (env : ExecEnv) (db : DB)
    (hnd : (db.proposals.map Proposal.id).Nodup) (p : Proposal)
    (hp : p ∈ get_approved_proposals db) (hdt : p.entity_type = "draft") :
    (∀ a, (validate_action "draft" a).fst = true ↔ a ∈ VALID_DRAFT_ACTIONS) ∧
    attempt_execution env p = .error "Unknown entity type: draft" ∧
    execution_result p (.error "Unknown entity type: draft")
      ∈ (execute_approved_proposals env db).snd ∧
    (get_proposal p.id (execute_approved_proposals env db).fst).map
      Proposal.status = some "approved" := by
  have herr : attempt_execution env p = .error "Unknown entity type: draft" := by
    simp +decide [attempt_execution, hdt]
  refine ⟨?_, herr, ?_, ?_⟩
  · intro a
    simp +decide [validate_action, VALID_DRAFT_ACTIONS]
    by_cases h : a = "approve" ∨ a = "send" ∨ a = "delete" <;> simp [h]
  · have hres : (execute_approved_proposals env db).snd
        = (get_approved_proposals db).map
            (fun p => execution_result p (attempt_execution env p)) := by
      simpa using exec_foldl_results env (get_approved_proposals db) db []
    rw [hres]
    have hmem : execution_result p (attempt_execution env p)
        ∈ List.map (fun p => execution_result p (attempt_execution env p))
          (get_approved_proposals db) :=
      List.mem_map_of_mem _ hp
    rw [herr] at hmem
    exact hmem
  · exact exec_status_of_error env db hnd p hp _ herr

def envC10W : ExecEnv :=
  { select_email_account := fun _ =>
      (some { id := "a1", provider := "gmail", email := "me@x.y" }, ""),
    thread_action_success := fun _ _ _ _ => true,
    signal_mark_read := fun _ => .ok () }

def pC10 : Proposal :=
  { id := "pd", entity_type := "draft", entity_id := "d9",
    proposed_action := "send", status := "approved", approved_at := some 1 }

def dbC10W : DB :=
  { proposals := [pC10], clock := 3 }

/-- Witness for C10: a concrete approved draft proposal produces the
"Unknown entity type: draft" failure result and stays approved. -/
theorem c10_draft_proposals_never_execute_witness :
    execution_result pC10 (.error "Unknown entity type: draft")
      ∈ (execute_approved_proposals envC10W dbC10W).snd ∧
    (get_proposal "pd" (execute_approved_proposals envC10W dbC10W).fst).map
      Proposal.status = some "approved" := by
  have h := c10_draft_proposals_never_execute envC10W dbC10W (by decide)
    pC10 (by decide) (by rfl)
  exact ⟨h.2.2.1, h.2.2.2⟩

/-! Triage orchestration (src/comms/triage.py).  The `claude` subprocess,
json.loads and the pattern/snooze modules (absent from src/) are oracles;
Python exceptions escaping `triage_inbox` are modelled as `Except.error`. -/

/-- src/comms/services.py `InboxItem`. -/
structure InboxItem where
  source : String
  source_id : String
  sender : String
  preview : String
  timestamp : Nat
  unread : Bool
  item_id : String
  deriving Repr, DecidableEq

/-- A parsed JSON value: the result of `json.loads` (an external library
call).  `jobj` field lists carry distinct keys, as json.loads keeps only
the last duplicate. -/
inductive JVal where
  | jnull
  | jbool (b : Bool)
  | jnum (q : ℚ)
  | jstr (s : String)
  | jarr (l : List JVal)
  | jobj (fields : List (String × JVal))

/-- src/comms/triage.py `TriageProposal`.  Python does not type-check the
LLM-filled `action` and `reasoning` slots, so they carry the raw JSON
values; pattern-rule proposals always carry strings. -/
structure TriageProposal where
  item : InboxItem
  action : JVal
  reasoning : JVal
  confidence : ℚ

/-- The Python exceptions that can escape the triage pipeline. -/
inductive PyErr where
  | timeoutExpired
  | typeError
  | attributeError
  | valueError
  deriving Repr, DecidableEq

/-- Outcome of the `claude` subprocess call (`subprocess.run` with
`timeout=120`): either the timeout fires — raising
`subprocess.TimeoutExpired` — or the process finishes with an exit code
and its stdout. -/
inductive LLMOutcome where
  | timeout
  | done (returncode : Int) (stdout : String)

/-- A deterministic pattern-rule hit (src/comms/patterns.py
`should_skip_triage`, absent from src/). -/
structure PatternMatch where
  action : String
  reason : String
  confidence : ℚ
  deriving Repr, DecidableEq

/-- External collaborators of `triage_inbox`: the unified inbox aggregation
(adapter-bound boundary), the snooze store and pattern rules
(src/comms/snooze.py and src/comms/patterns.py, absent from src/), the
rules file contents, the `claude` subprocess (keyed by the remaining items
and rules text the prompt is built from), `json.loads`, and Python
`float()` on strings. -/
structure TriageEnv where
  inbox : Nat → List InboxItem
  is_snoozed : String → String → Bool
  should_skip_triage : String → String → String → Option PatternMatch
  detect_urgency : String → String → ℚ × String
  rules : String
  llm : List InboxItem → String → LLMOutcome
  json_parse : String → Except Unit JVal
  str_to_float : String → Except Unit ℚ

/-- src/comms/triage.py `entity_type_map.get(item.source, "thread")`. -/
def snooze_entity_type (source : String) : String :=
  if source == "email" then "thread"
  else if source == "signal" then "signal_message"
  else "thread"

/-- The snooze filter inside `triage_inbox` (resurfacing due snoozes only
mutates the snooze store, whose state `is_snoozed` reflects). -/
def triage_items (env : TriageEnv) (limit : Nat) : List InboxItem :=
  (env.inbox limit).filter
    (fun it => !(env.is_snoozed (snooze_entity_type it.source) it.item_id))

/-- src/comms/triage.py `_apply_patterns`: email items hit by a pattern
rule become proposals (the urgency heuristic forcing `flag` over a softer
pattern action); everything else remains for the LLM. -/
def apply_patterns (env : TriageEnv) :
    List InboxItem → List TriageProposal × List InboxItem
  | [] => ([], [])
  | item :: rest =>
      let pr := apply_patterns env rest
      if item.source != "email" then (pr.fst, item :: pr.snd)
      else
        match env.should_skip_triage item.sender "" item.preview with
        | some m =>
            let u := env.detect_urgency "" item.preview
            if (6 : ℚ) / 10 ≤ u.fst then
              ({ item := item, action := .jstr "flag",
                 reasoning :=
                   .jstr ("[auto] " ++ m.reason ++ ", but " ++ u.snd),
                 confidence := u.fst } :: pr.fst, pr.snd)
            else
              ({ item := item, action := .jstr m.action,
                 reasoning := .jstr ("[auto] " ++ m.reason),
                 confidence := m.confidence } :: pr.fst, pr.snd)
        | none => (pr.fst, item :: pr.snd)

/-- `item.item_id[:8]`. -/
def take8 (s : String) : String :=
  String.mk (s.toList.take 8)

/-- Python dict `.get(key, default)` on a JSON object. -/
def jget (fields : List (String × JVal)) (key : String) (dflt : JVal) : JVal :=
  ((fields.find? (fun kv => kv.fst == key)).map (fun kv => kv.snd)).getD dflt

/-- Python `float(x)`: numbers and bools convert, numeric strings convert
through the library (oracle), anything else raises. -/
def py_float (env : TriageEnv) : JVal → Except PyErr ℚ
  | .jnum q => .ok q
  | .jbool b => .ok (if b then 1 else 0)
  | .jstr s =>
      match env.str_to_float s with
      | .ok q => .ok q
      | .error _ => .error .valueError
  | _ => .error .typeError

/-- One iteration of the `_parse_response` entry loop: a non-object entry
raises AttributeError at `p.get`; an id that is not a string key of the
item map, or an unknown id, skips the entry; an entry whose confidence
cannot be converted by `float()` raises.  The item map is
`{item.item_id[:8]: item}`, later items overwriting earlier ones. -/
def parse_entry (env : TriageEnv) (items : List InboxItem) (p : JVal) :
    Except PyErr (Option TriageProposal) :=
  match p with
  | .jobj fields =>
      match jget fields "id" (.jstr "") with
      | .jstr s =>
          match items.reverse.find? (fun it => take8 it.item_id == s) with
          | none => .ok none
          | some item =>
              match py_float env (jget fields "confidence" (.jnum (5 / 10))) with
              | .error e => .error e
              | .ok conf =>
                  .ok (some
                    { item := item,
                      action := jget fields "action" (.jstr "ignore"),
                      reasoning := jget fields "reasoning" (.jstr ""),
                      confidence := conf })
      | _ => .ok none
  | _ => .error .attributeError

/-- The `_parse_response` entry loop over the decoded array. -/
def parse_entries (env : TriageEnv) (items : List InboxItem) :
    List JVal → Except PyErr (List TriageProposal)
  | [] => .ok []
  | p :: rest =>
      match parse_entry env items p with
      | .error e => .error e
      | .ok none => parse_entries env items rest
      | .ok (some tp) =>
          match parse_entries env items rest with
          | .error e => .error e
          | .ok tps => .ok (tp :: tps)

/-- The code-fence stripping of `_parse_response`:
`"\n".join(lines[1:-1] if lines[-1] == "\x60\x60\x60" else lines[1:])`. -/
def strip_fence_body (out : String) : String :=
  let lines := out.splitOn "\n"
  String.intercalate "\n"
    (if lines.getLast? = some "```" then (lines.drop 1).dropLast
     else lines.drop 1)

/-- The stdout preprocessing of `_parse_response`: strip, then drop a
leading code fence. -/
def normalize_output (output : String) : String :=
  let out := output.trim
  if out.startsWith "```" then strip_fence_body out else out

/-- src/comms/triage.py `_parse_response`.  A JSONDecodeError is caught and
yields `[]`; a decoded top-level value that is not an array raises when
iterated or when `.get` is called on its elements — except the vacuous
empty string and empty object, whose iteration yields nothing. -/
def parse_response (env : TriageEnv) (output : String)
    (items : List InboxItem) : Except PyErr (List TriageProposal) :=
  match env.json_parse (normalize_output output) with
  | .error _ => .ok []
  | .ok v =>
      match v with
      | .jarr l => parse_entries env items l
      | .jstr "" => .ok []
      | .jstr _ => .error .attributeError
      | .jobj [] => .ok []
      | .jobj _ => .error .attributeError
      | _ => .error .typeError

/-- Python membership `p.action in ("flag", "delete")` tests equality
against string literals; a non-string JSON value is never equal. -/
def jval_is_str (v : JVal) (s : String) : Bool :=
  match v with
  | .jstr t => t == s
  | _ => false

/-- The urgency annotation applied to one LLM proposal after parsing:
`p.reasoning += " [urgent: ...]"` raises TypeError when the LLM produced a
non-string reasoning. -/
def annotate_urgent_one (env : TriageEnv) (p : TriageProposal) :
    Except PyErr TriageProposal :=
  let u := env.detect_urgency "" p.item.preview
  if decide ((6 : ℚ) / 10 ≤ u.fst)
      && !(jval_is_str p.action "flag") && !(jval_is_str p.action "delete")
  then
    match p.reasoning with
    | .jstr s =>
        .ok { p with
              reasoning := .jstr (s ++ " [urgent: " ++ u.snd ++ "]") }
    | _ => .error .typeError
  else .ok p

/-- The urgency annotation loop over the LLM proposals. -/
def annotate_urgent (env : TriageEnv) :
    List TriageProposal → Except PyErr (List TriageProposal)
  | [] => .ok []
  | p :: rest =>
      match annotate_urgent_one env p with
      | .error e => .error e
      | .ok p2 =>
          match annotate_urgent env rest with
          | .error e => .error e
          | .ok r2 => .ok (p2 :: r2)

/-- src/comms/triage.py `triage_inbox`.  The `subprocess.run` call passes
`timeout=120` but nothing catches `TimeoutExpired`, so a timeout
propagates; a nonzero exit code returns the pattern-derived proposals; the
LLM-derived portion is parsed, urgency-annotated and appended. -/
def triage_inbox (env : TriageEnv) (limit : Nat) :
    Except PyErr (List TriageProposal) :=
  if (env.inbox limit).isEmpty then .ok []
  else
    let items := triage_items env limit
    if items.isEmpty then .ok []
    else
      let pr := apply_patterns env items
      if pr.snd.isEmpty then .ok pr.fst
      else
        match env.llm pr.snd env.rules with
        | .timeout => .error .timeoutExpired
        | .done rc out =>
            if rc != 0 then .ok pr.fst
            else
              match parse_response env out pr.snd with
              | .error e => .error e
              | .ok claude_props =>
                  match annotate_urgent env claude_props with
                  | .error e => .error e
                  | .ok annotated => .ok (pr.fst ++ annotated)

/-- The pattern-derived subset `triage_inbox` falls back to. -/
def triage_pattern_only (env : TriageEnv) (limit : Nat) : List TriageProposal :=
  if (env.inbox limit).isEmpty then []
  else if (triage_items env limit).isEmpty then []
  else (apply_patterns env (triage_items env limit)).fst

def itemC4 : InboxItem :=
  { source := "email", source_id := "me@x.y", sender := "a@b.c",
    preview := "hello", timestamp := 10, unread := true, item_id := "t1234567abc" }

def envC4 : TriageEnv :=
  { inbox := fun _ => [itemC4],
    is_snoozed := fun _ _ => false,
    should_skip_triage := fun _ _ _ => none,
    detect_urgency := fun _ _ => (0, ""),
    rules := "",
    llm := fun _ _ => .timeout,
    json_parse := fun _ => .error (),
    str_to_float := fun _ => .error () }

/-- Claim C4 as stated is false: when the `claude` subprocess times out,
`triage_inbox` raises `subprocess.TimeoutExpired` to its caller instead of
returning the pattern-derived proposals — `subprocess.run(..., timeout=120)`
is not wrapped in any try/except. -/
theorem c4_counterexample :
    triage_inbox envC4 20 = .error .timeoutExpired := by
  rfl

/-- Claim C4, amended: for output the JSON parser rejects (including empty
output) and for a nonzero exit code, `triage_inbox` fails soft and returns
exactly the pattern-derived proposals (or the empty list); but a subprocess
timeout is not caught and propagates to the caller. -/
theorem c4_amended (env : TriageEnv) (limit : Nat) :
    (∀ rc out,
      env.llm (apply_patterns env (triage_items env limit)).snd env.rules
        = .done rc out →
      (rc ≠ 0 ∨ env.json_parse (normalize_output out) = .error ()) →
      triage_inbox env limit = .ok (triage_pattern_only env limit)) ∧
    (env.llm (apply_patterns env (triage_items env limit)).snd env.rules
        = .timeout →
      ¬(env.inbox limit).isEmpty = true →
      ¬(triage_items env limit).isEmpty = true →
      ¬(apply_patterns env (triage_items env limit)).snd.isEmpty = true →
      triage_inbox env limit = .error .timeoutExpired) := by
  constructor
  · intro rc out hllm hfail
    by_cases h0 : (env.inbox limit).isEmpty = true
    · simp [triage_inbox, triage_pattern_only, h0]
    · by_cases h1 : (triage_items env limit).isEmpty = true
      · simp [triage_inbox, triage_pattern_only, h0, h1]
      · by_cases h2 : (apply_patterns env (triage_items env limit)).snd.isEmpty = true
        · simp [triage_inbox, triage_pattern_only, h0, h1, h2]
        · rcases hfail with hrc | hjson
          · simp [triage_inbox, triage_pattern_only, h0, h1, h2, hllm, hrc]
          · by_cases hrc : rc = 0
            · simp [triage_inbox, triage_pattern_only, h0, h1, h2, hllm, hrc,
                parse_response, hjson, annotate_urgent]
            · simp [triage_inbox, triage_pattern_only, h0, h1, h2, hllm, hrc]
  · intro hllm h0 h1 h2
    simp [triage_inbox, h0, h1, h2, hllm]

def envC4b : TriageEnv :=
  { envC4 with llm := fun _ _ => .done 1 "model crashed" }

/-- Witness for the amended C4 theorem: a nonzero exit code yields exactly
the pattern subset (here empty, as no pattern rule fires). -/
theorem c4_amended_witness :
    triage_inbox envC4b 20 = .ok (triage_pattern_only envC4b 20) := by
  exact (c4_amended envC4b 20).1 1 "model crashed" (by rfl)
    (Or.inl (by decide))

end Comms
